import Mathlib

/-!
Verification of the Nmap2CSV extraction and reporting pipeline
(`nmap_parser.py`) against its specification.

The XML data model is a rose tree of elements; the extractor
`parse_single_nmap_file`, the per-file loop of `nmap_parser`, the
open-only filter, and the HTML-report statistics are embedded as
executable Lean functions, translated clause by clause from the source.
-/

/-- An XML element: tag name, attribute list, child elements.
Models the `xml.etree.ElementTree` `Element` objects the program
traverses. -/
inductive XmlElem : Type where
  | mk : String → List (String × String) → List XmlElem → XmlElem

def XmlElem.tag : XmlElem → String
  | .mk t _ _ => t

def XmlElem.attrs : XmlElem → List (String × String)
  | .mk _ a _ => a

def XmlElem.children : XmlElem → List XmlElem
  | .mk _ _ c => c

/-- `elem.findall(t)`: the direct children with the given tag, in
document order. -/
def findall (e : XmlElem) (t : String) : List XmlElem :=
  e.children.filter (fun c => c.tag == t)

/-- `elem.find(t)`: the first direct child with the given tag, if any. -/
def find (e : XmlElem) (t : String) : Option XmlElem :=
  e.children.find? (fun c => c.tag == t)

/-- `elem.get(k)`: attribute lookup returning `none` when the attribute
is absent (an attribute present with an empty value yields `some ""`). -/
def getAttr (e : XmlElem) (k : String) : Option String :=
  (e.attrs.find? (fun p => p.1 == k)).map (fun p => p.2)

/-- `elem.get(k, d)`: attribute lookup with a default for absence. -/
def getAttrD (e : XmlElem) (k d : String) : String :=
  (getAttr e k).getD d

/-- Python truthiness of an optional string: `none` and `some ""` are
falsy, every other value is truthy. -/
def truthy : Option String → Bool
  | none => false
  | some s => s != ""

/-- `' '.join(parts)`: concatenate with single spaces. -/
def spaceJoin : List String → String
  | [] => ""
  | [p] => p
  | p :: ps => p ++ " " ++ spaceJoin ps

/-- Lines 68-80 of `parse_single_nmap_file`: build the `Details` field
from the `product`, `version` and `extrainfo` attributes of the
`service` element (each appended only when truthy, the version
parenthesized), falling back to `"Unknown"` when no part was kept. -/
def detailsFromAttrs (product version extrainfo : Option String) : String :=
  let details_parts : List String :=
    (if truthy product then [product.getD ""] else []) ++
    (if truthy version then ["(" ++ version.getD "" ++ ")"] else []) ++
    (if truthy extrainfo then [extrainfo.getD ""] else [])
  if details_parts.isEmpty then "Unknown" else spaceJoin details_parts

/-- One output row of the extractor (the dictionary appended at lines
82-91 of `parse_single_nmap_file`). -/
structure ScanRecord : Type where
  ip : String
  hostname : String
  port_number : String
  protocol : String
  state : String
  service : String
  details : String
  source_file : String
deriving Repr, DecidableEq

/-- Lines 49-91: turn one `port` element into a record, given the
enclosing host's ip and hostname and the source-file name. -/
def parsePort (ip hostname sourceName : String) (port : XmlElem) : ScanRecord :=
  let protocol := getAttrD port "protocol" "Unknown"
  let port_number := getAttrD port "portid" "Unknown"
  let state :=
    match find port "state" with
    | none => "Unknown"
    | some state_elem => getAttrD state_elem "state" "Unknown"
  let service_details :=
    match find port "service" with
    | none => ("Unknown", detailsFromAttrs none none none)
    | some service_elem =>
        (getAttrD service_elem "name" "Unknown",
         detailsFromAttrs (getAttr service_elem "product")
           (getAttr service_elem "version") (getAttr service_elem "extrainfo"))
  { ip := ip, hostname := hostname, port_number := port_number,
    protocol := protocol, state := state, service := service_details.1,
    details := service_details.2, source_file := sourceName }

/-- Lines 36-42: the hostname of a host element, taken from the `name`
attribute of the first `hostname` child of the first `hostnames`
child; absence at any level yields `"N/A"`. -/
def hostnameOf (host : XmlElem) : String :=
  match find host "hostnames" with
  | none => "N/A"
  | some hostnames_elem =>
    match find hostnames_elem "hostname" with
    | none => "N/A"
    | some hostname_elem => getAttrD hostname_elem "name" "N/A"

/-- Lines 29-47: process one top-level `host` element.  A host without
an `address` child or without a `ports` child is skipped entirely
(hostname extraction is factored into `hostnameOf`). -/
def parseHost (sourceName : String) (host : XmlElem) : List ScanRecord :=
  match find host "address" with
  | none => []
  | some address_elem =>
    match find host "ports" with
    | none => []
    | some ports_elem =>
        (findall ports_elem "port").map
          (parsePort (getAttrD address_elem "addr" "Unknown")
            (hostnameOf host) sourceName)

/-- Split a character list at every slash (the list analogue of
`str.split('/')`). -/
def splitSlash : List Char → List (List Char)
  | [] => [[]]
  | c :: cs =>
    let rest := splitSlash cs
    if c = '/' then [] :: rest
    else
      match rest with
      | [] => [[c]]
      | h :: t => (c :: h) :: t

/-- `Path(xml_file).name`: the last path component, ignoring empty and
`"."` components. -/
def pathName (s : String) : String :=
  String.mk (((splitSlash s.data).filter
    (fun c => !(c == []) && !(c == ['.']))).getLastD [])

/-- `parse_single_nmap_file` applied to an already-parsed document:
flatten the records of every top-level `host` element, in document
order. -/
def parse_single_nmap_file (xml_file : String) (root : XmlElem) : List ScanRecord :=
  (findall root "host").flatMap (parseHost (pathName xml_file))

/-- ASCII model of `str.lower()`. -/
def strToLower (s : String) : String :=
  String.mk (s.data.map Char.toLower)

/-- ASCII model of `str.upper()`. -/
def strToUpper (s : String) : String :=
  String.mk (s.data.map Char.toUpper)

/-- Model of `str.endswith(t)`. -/
def strEndsWith (s t : String) : Bool :=
  List.isSuffixOf t.data s.data

/-- Line 733: `xml_file.lower().endswith('.xml')`, the extension check
deciding whether a file is processed at all. -/
def acceptedExt (xml_file : String) : Bool :=
  strEndsWith (strToLower xml_file) ".xml"

/-- What the file system holds at a given path: nothing, a byte stream
that is not well-formed XML, or a well-formed document with the given
root element. -/
inductive FileContent : Type where
  | missing : FileContent
  | malformed : FileContent
  | doc : XmlElem → FileContent

/-- One command-line input: the path string and what that path holds. -/
structure InputFile : Type where
  name : String
  content : FileContent

/-- Lines 19-24: `ET.parse` plus the `except ET.ParseError` handler,
which re-raises a `ValueError` naming the offending file.  A
well-formed document is parsed by `parse_single_nmap_file`. -/
def parse_single_nmap_file_result (xml_file : String) :
    FileContent → Except String (List ScanRecord)
  | FileContent.missing => Except.error ("No such file: " ++ xml_file)
  | FileContent.malformed =>
      Except.error ("Invalid XML format in " ++ xml_file)
  | FileContent.doc root => Except.ok (parse_single_nmap_file xml_file root)

/-- Lines 731-749, body of the per-file loop: a file with the wrong
extension or that does not exist is skipped with a warning; a file
whose parse raises is skipped with an error message; otherwise its
records are contributed. -/
def processFile (f : InputFile) : List ScanRecord :=
  if !(acceptedExt f.name) then []
  else
    match f.content with
    | FileContent.missing => []
    | c =>
        match parse_single_nmap_file_result f.name c with
        | Except.error _ => []
        | Except.ok file_data => file_data

/-- The `all_data` accumulator of lines 728-749: each processed file's
records are appended (`all_data.extend(file_data)`) in turn. -/
def collectLoop : List InputFile → List ScanRecord → List ScanRecord
  | [], all_data => all_data
  | f :: fs, all_data => collectLoop fs (all_data ++ processFile f)

/-- Lines 728-762 of `nmap_parser`: collect all records, fail if none,
optionally keep only the rows whose `State` is `"open"`, failing if
that filter leaves nothing.  The returned list is the DataFrame the
three serializers receive. -/
def nmap_parser_records (xml_files : List InputFile) (open_only : Bool) :
    Except String (List ScanRecord) :=
  let all_data := collectLoop xml_files []
  if all_data.isEmpty then
    Except.error "No valid data found in any of the provided XML files"
  else
    if open_only then
      let df := all_data.filter (fun r => r.state == "open")
      if df.isEmpty then
        Except.error "No open ports found in the scan results"
      else Except.ok df
    else Except.ok all_data

/-- Lines 764-782: the names of the files written on a successful run
(CSV always, Excel and HTML on request); nothing is written when the
run raises. -/
def nmap_parser_outputs (xml_files : List InputFile)
    (open_only excel_output html_output : Bool) : List String :=
  match nmap_parser_records xml_files open_only with
  | Except.error _ => []
  | Except.ok _ =>
      ["nmap_parser_output.csv"] ++
      (if excel_output then ["nmap_parser_output.xlsx"] else []) ++
      (if html_output then ["nmap_report.html"] else [])

/-- The fixed column order of the tabular outputs. -/
def csvHeader : List String :=
  ["IP", "Hostname", "Port Number", "Protocol", "State", "Service",
   "Details", "Source File"]

/-- One CSV row: the record's fields, verbatim, in column order. -/
def csvRow (r : ScanRecord) : List String :=
  [r.ip, r.hostname, r.port_number, r.protocol, r.state, r.service,
   r.details, r.source_file]

/-- Line 769, `df.to_csv`: header row followed by one row per record. -/
def csv_output (df : List ScanRecord) : List (List String) :=
  csvHeader :: df.map csvRow

/-- Line 775, `df.to_excel`: the same table, one sheet. -/
def xlsx_output (df : List ScanRecord) : List (List String) :=
  csvHeader :: df.map csvRow

/-- Lines 121-122: the fixed allow-list of critical services. -/
def critical_services : List String :=
  ["ssh", "telnet", "ftp", "http", "https", "rdp", "ms-wbt-server",
   "mysql", "postgresql", "mssql", "smb", "microsoft-ds"]

/-- Line 123: `df[df['Service'].isin(critical_services) & (df['State'] ==
'open')]`. -/
def critical_ports (df : List ScanRecord) : List ScanRecord :=
  df.filter (fun r => critical_services.contains r.service && r.state == "open")

/-- The distinct values of a list in order of first appearance (the key
order of the pandas hash table behind `value_counts` / `nunique`). -/
def firstOccurrences : List String → List String
  | [] => []
  | s :: rest => s :: (firstOccurrences rest).filter (fun t => !(t == s))

/-- `Series.nunique()`: the number of distinct values. -/
def nunique (l : List String) : Nat :=
  (firstOccurrences l).length

/-- How many times a value occurs in a list. -/
def countOf (l : List String) (s : String) : Nat :=
  (l.filter (fun t => t == s)).length

/-- Insert a keyed count into a descending-by-count list, after every
entry with a strictly greater or equal count (so the sort is stable). -/
def insertDesc (p : String × Nat) : List (String × Nat) → List (String × Nat)
  | [] => [p]
  | q :: qs => if q.2 ≤ p.2 then p :: q :: qs else q :: insertDesc p qs

/-- Stable insertion sort by descending count. -/
def sortDesc : List (String × Nat) → List (String × Nat)
  | [] => []
  | p :: ps => insertDesc p (sortDesc ps)

/-- `Series.value_counts()`: pair every distinct value, in order of
first appearance, with its count, then stably sort by descending
count (pandas sorts with `kind="stable"` here, so ties keep the
first-appearance order). -/
def value_counts (l : List String) : List (String × Nat) :=
  sortDesc ((firstOccurrences l).map (fun s => (s, countOf l s)))

/-- The `Service` column of the open rows of the DataFrame
(`df[df['State'] == 'open']['Service']`). -/
def openServices (df : List ScanRecord) : List String :=
  (df.filter (fun r => r.state == "open")).map (fun r => r.service)

/-- Line 118: `df[df['State'] == 'open']['Service'].value_counts().head(5)`. -/
def top_services (df : List ScanRecord) : List (String × Nat) :=
  (value_counts (openServices df)).take 5

/-- Lines 594-612: the cell texts of one row of the HTML table; the
protocol and state columns are uppercased here (and only here), the
service cell may carry the critical badge, and the source-file cell
appears only when more than one distinct source file is present. -/
def htmlRow (df : List ScanRecord) (r : ScanRecord) : List String :=
  let critical_marker :=
    if critical_services.contains r.service && r.state == "open" then
      "<span class=\"critical-badge\">CRITICAL</span>"
    else ""
  [r.ip, r.hostname, r.port_number, strToUpper r.protocol,
   strToUpper r.state, r.service ++ critical_marker, r.details] ++
  (if 1 < nunique (df.map (fun x => x.source_file)) then [r.source_file] else [])

/-- The claim's per-host record count: the number of `port` children of
the host's `ports` child (zero when there is no `ports` child). -/
def claimedPortCount (h : XmlElem) : Nat :=
  match find h "ports" with
  | none => 0
  | some ports_elem => (findall ports_elem "port").length

/-- The details formula as the claim words it, reading "if present" as
attribute-key presence: join, in order, the product, the parenthesized
version and the extrainfo whenever the attribute exists in the XML,
sentinel only when none of the three exists. -/
def detailsPresence (product version extrainfo : Option String) : String :=
  let parts := List.filterMap id
    [product, version.map (fun v => "(" ++ v ++ ")"), extrainfo]
  if parts.isEmpty then "Unknown" else spaceJoin parts

/-- The amended details formula: include whichever of product,
parenthesized version and extrainfo are present with a non-empty
value, in that order, space-joined; sentinel when nothing was kept. -/
def detailsSpec (product version extrainfo : Option String) : String :=
  let parts := List.filterMap id
    [Option.filter (fun s => !(s == "")) product,
     (Option.filter (fun s => !(s == "")) version).map
       (fun v => "(" ++ v ++ ")"),
     Option.filter (fun s => !(s == "")) extrainfo]
  if parts.isEmpty then "Unknown" else spaceJoin parts

/-- One attribute, when the extractor reads it, has a non-empty value:
either the attribute is absent (the extractor then substitutes a
sentinel) or its value is non-empty. -/
def attrReadOk (e : XmlElem) (k : String) : Bool :=
  match getAttr e k with
  | none => true
  | some v => !(v == "")

/-- The attributes the extractor reads off a `service` element
(`name`, `product`, `version`, `extrainfo`) are non-empty when
present. -/
def serviceReadOk (service_elem : XmlElem) : Bool :=
  attrReadOk service_elem "name" && attrReadOk service_elem "product" &&
  attrReadOk service_elem "version" && attrReadOk service_elem "extrainfo"

/-- The attributes the extractor reads off one `port` element and its
nested `state` and `service` elements are non-empty when present. -/
def portReadOk (port : XmlElem) : Bool :=
  attrReadOk port "protocol" && attrReadOk port "portid" &&
  (match find port "state" with
   | none => true
   | some state_elem => attrReadOk state_elem "state") &&
  (match find port "service" with
   | none => true
   | some service_elem => serviceReadOk service_elem)

/-- The `addr` attribute the extractor reads off a host's `address`
element is non-empty when present. -/
def addressReadOk (host : XmlElem) : Bool :=
  match find host "address" with
  | none => true
  | some address_elem => attrReadOk address_elem "addr"

/-- The `name` attribute the extractor reads off a host's nested
`hostname` element is non-empty when present. -/
def hostnameReadOk (host : XmlElem) : Bool :=
  match find host "hostnames" with
  | none => true
  | some hostnames_elem =>
    match find hostnames_elem "hostname" with
    | none => true
    | some hostname_elem => attrReadOk hostname_elem "name"

/-- All attributes the extractor reads below one `host` element are
non-empty when present. -/
def hostReadOk (host : XmlElem) : Bool :=
  addressReadOk host && hostnameReadOk host &&
  (match find host "ports" with
   | none => true
   | some ports_elem => (findall ports_elem "port").all portReadOk)

/-- Every attribute value the extractor reads out of the document is
non-empty (attributes it never reads are unconstrained). -/
def readAttrsNonEmpty (root : XmlElem) : Bool :=
  (findall root "host").all hostReadOk

/-- Example document: one host with one open ssh port. -/
def exOpenDoc : XmlElem :=
  XmlElem.mk "nmaprun" []
    [XmlElem.mk "host" []
      [XmlElem.mk "address" [("addr", "10.0.0.1")] [],
       XmlElem.mk "ports" []
         [XmlElem.mk "port" [("protocol", "tcp"), ("portid", "22")]
           [XmlElem.mk "state" [("state", "open")] [],
            XmlElem.mk "service" [("name", "ssh"), ("product", "OpenSSH"),
                                  ("version", "8.9")] []]]]]

/-- The record extracted from `exOpenDoc`. -/
def openRec : ScanRecord :=
  { ip := "10.0.0.1", hostname := "N/A", port_number := "22",
    protocol := "tcp", state := "open", service := "ssh",
    details := "OpenSSH (8.9)", source_file := "scan.xml" }

/-- `exOpenDoc` on disk under the name `scan.xml`. -/
def exOpenFile : InputFile :=
  InputFile.mk "scan.xml" (FileContent.doc exOpenDoc)

/-- Example document: one host with one closed telnet port. -/
def exClosedDoc : XmlElem :=
  XmlElem.mk "nmaprun" []
    [XmlElem.mk "host" []
      [XmlElem.mk "address" [("addr", "10.0.0.2")] [],
       XmlElem.mk "ports" []
         [XmlElem.mk "port" [("protocol", "tcp"), ("portid", "23")]
           [XmlElem.mk "state" [("state", "closed")] [],
            XmlElem.mk "service" [("name", "telnet")] []]]]]

/-- `exClosedDoc` on disk under the name `closed.xml`. -/
def exClosedFile : InputFile :=
  InputFile.mk "closed.xml" (FileContent.doc exClosedDoc)

/-- A `service` element whose `product` attribute is present but
empty. -/
def c2Service : XmlElem :=
  XmlElem.mk "service" [("name", "http"), ("product", ""), ("version", "2.4")] []

/-- A `port` element carrying `c2Service`. -/
def c2Port : XmlElem :=
  XmlElem.mk "port" [("protocol", "tcp"), ("portid", "80")] [c2Service]

/-- A document whose single host has an `address` element with an
`addr` attribute that is present but empty. -/
def c3Root : XmlElem :=
  XmlElem.mk "nmaprun" []
    [XmlElem.mk "host" []
      [XmlElem.mk "address" [("addr", "")] [],
       XmlElem.mk "ports" []
         [XmlElem.mk "port" [("protocol", "tcp"), ("portid", "22")] []]]]

/-- An open-port record carrying a given service name. -/
def mkOpenRec (svc : String) : ScanRecord :=
  { ip := "10.0.0.1", hostname := "N/A", port_number := "80",
    protocol := "tcp", state := "open", service := svc,
    details := "Unknown", source_file := "scan.xml" }

/-- Eleven open records over six services: five services occur twice,
service `"f"` once. -/
def c7df : List ScanRecord :=
  [mkOpenRec "a", mkOpenRec "a", mkOpenRec "b", mkOpenRec "b",
   mkOpenRec "c", mkOpenRec "c", mkOpenRec "d", mkOpenRec "d",
   mkOpenRec "e", mkOpenRec "e", mkOpenRec "f"]

theorem parseHost_nil_of_no_address (s : String) (h : XmlElem)
    (ha : find h "address" = none) : parseHost s h = [] := by
  unfold parseHost
  rw [ha]

theorem parseHost_nil_of_no_ports (s : String) (h : XmlElem)
    (hp : find h "ports" = none) : parseHost s h = [] := by
  unfold parseHost
  cases hfa : find h "address" with
  | none => rfl
  | some a => rw [hp]

theorem parseHost_length (s : String) (h : XmlElem) :
    (parseHost s h).length =
      if (find h "address").isSome && (find h "ports").isSome
      then claimedPortCount h else 0 := by
  unfold parseHost claimedPortCount
  cases hfa : find h "address" <;> cases hfp : find h "ports" <;>
    simp [hfa, hfp]

theorem flatMapParse_length (s : String) :
    ∀ hosts : List XmlElem,
      (hosts.flatMap (parseHost s)).length =
        ((hosts.filter
            (fun h => (find h "address").isSome && (find h "ports").isSome)).map
          claimedPortCount).sum
  | [] => rfl
  | h :: hs => by
    rw [List.flatMap_cons, List.length_append, flatMapParse_length s hs]
    by_cases hc :
        ((find h "address").isSome && (find h "ports").isSome) = true
    · rw [parseHost_length, if_pos hc, List.filter_cons, if_pos hc,
        List.map_cons, List.sum_cons]
    · rw [parseHost_length, if_neg hc, List.filter_cons, if_neg hc,
        Nat.zero_add]

/-- C1: the number of records produced by the extractor equals the sum,
over exactly the top-level host elements having both an `address` child
and a `ports` child, of the number of `port` children of the `ports`
child; a host missing either child contributes zero records. -/
theorem c1_record_count (xml_file : String) (root : XmlElem) :
    (parse_single_nmap_file xml_file root).length =
      (((findall root "host").filter
          (fun h => (find h "address").isSome && (find h "ports").isSome)).map
        claimedPortCount).sum
    ∧ ∀ h : XmlElem, (find h "address" = none ∨ find h "ports" = none) →
        parseHost (pathName xml_file) h = [] := by
  constructor
  · exact flatMapParse_length (pathName xml_file) (findall root "host")
  · intro h hcase
    cases hcase with
    | inl ha => exact parseHost_nil_of_no_address _ h ha
    | inr hp => exact parseHost_nil_of_no_ports _ h hp

/-- Witness for C1: a host element with no children contributes zero
records. -/
theorem c1_record_count_witness :
    parseHost (pathName "scan.xml") (XmlElem.mk "host" [] []) = [] :=
  (c1_record_count "scan.xml" (XmlElem.mk "nmaprun" [] [])).2
    (XmlElem.mk "host" [] []) (Or.inl rfl)

theorem collectLoop_append (fs : List InputFile) :
    ∀ acc, collectLoop fs acc = acc ++ (fs.map processFile).flatten := by
  induction fs with
  | nil => intro acc; simp [collectLoop]
  | cons f fs ih =>
    intro acc
    rw [collectLoop, ih (acc ++ processFile f)]
    simp [List.append_assoc]

/-- C4: the merged record table is the concatenation, in the order the
files were supplied, of each file's record list computed independently
on that file alone; in particular a successful unfiltered run returns
exactly that concatenation. -/
theorem c4_merge_is_concat (xml_files : List InputFile) :
    collectLoop xml_files [] = (xml_files.map processFile).flatten
    ∧ ∀ recs, nmap_parser_records xml_files false = Except.ok recs →
        recs = (xml_files.map processFile).flatten := by
  have hbase : collectLoop xml_files [] = (xml_files.map processFile).flatten := by
    simpa using collectLoop_append xml_files []
  refine ⟨hbase, ?_⟩
  intro recs hok
  unfold nmap_parser_records at hok
  by_cases hemp : (collectLoop xml_files []).isEmpty
  · rw [if_pos hemp] at hok
    cases hok
  · rw [if_neg hemp] at hok
    simp only [Bool.false_eq_true, if_false] at hok
    cases hok
    exact hbase

theorem nmap_parser_records_true_eq (xml_files : List InputFile) :
    nmap_parser_records xml_files true =
      (if (collectLoop xml_files []).isEmpty then
        Except.error "No valid data found in any of the provided XML files"
      else if ((collectLoop xml_files []).filter
          (fun r => r.state == "open")).isEmpty then
        Except.error "No open ports found in the scan results"
      else
        Except.ok ((collectLoop xml_files []).filter
          (fun r => r.state == "open"))) := rfl

theorem nmap_parser_records_false_eq (xml_files : List InputFile) :
    nmap_parser_records xml_files false =
      (if (collectLoop xml_files []).isEmpty then
        Except.error "No valid data found in any of the provided XML files"
      else Except.ok (collectLoop xml_files [])) := rfl

/-- C5: with `open_only` set, a successful run returns exactly the
order-preserving filter keeping the records whose state is `"open"`
(so every returned record is open), and when that filter keeps
nothing the run fails with an error and writes no output file. -/
theorem c5_open_only (xml_files : List InputFile) :
    (∀ recs, nmap_parser_records xml_files true = Except.ok recs →
        recs = (collectLoop xml_files []).filter (fun r => r.state == "open")
        ∧ ∀ r ∈ recs, r.state = "open")
    ∧ ((collectLoop xml_files []).filter (fun r => r.state == "open") = [] →
        (∃ msg, nmap_parser_records xml_files true = Except.error msg)
        ∧ ∀ e h, nmap_parser_outputs xml_files true e h = []) := by
  have hstate :
      ∀ r ∈ (collectLoop xml_files []).filter (fun r => r.state == "open"),
        r.state = "open" := by
    intro r hr
    exact eq_of_beq (List.mem_filter.mp hr).2
  constructor
  · intro recs hok
    rw [nmap_parser_records_true_eq] at hok
    by_cases h1 : (collectLoop xml_files []).isEmpty
    · rw [if_pos h1] at hok
      exact Except.noConfusion hok
    · rw [if_neg h1] at hok
      by_cases h2 : ((collectLoop xml_files []).filter
          (fun r => r.state == "open")).isEmpty
      · rw [if_pos h2] at hok
        exact Except.noConfusion hok
      · rw [if_neg h2] at hok
        injection hok with hok
        subst hok
        exact ⟨rfl, hstate⟩
  · intro hfilter
    have herr : ∃ msg, nmap_parser_records xml_files true = Except.error msg := by
      rw [nmap_parser_records_true_eq]
      by_cases h1 : (collectLoop xml_files []).isEmpty
      · refine ⟨"No valid data found in any of the provided XML files", ?_⟩
        rw [if_pos h1]
      · refine ⟨"No open ports found in the scan results", ?_⟩
        rw [if_neg h1, if_pos (by rw [hfilter]; rfl)]
    refine ⟨herr, ?_⟩
    intro e h
    obtain ⟨msg, hmsg⟩ := herr
    unfold nmap_parser_outputs
    rw [hmsg]

/-- Witness for C5: a run over one all-open file returns exactly the
open filter, and a run over one all-closed file fails and writes
nothing. -/
theorem c5_open_only_witness :
    ([openRec] = (collectLoop [exOpenFile] []).filter
        (fun r => r.state == "open")
      ∧ ∀ r ∈ [openRec], r.state = "open")
    ∧ ((∃ msg, nmap_parser_records [exClosedFile] true = Except.error msg)
      ∧ ∀ e h, nmap_parser_outputs [exClosedFile] true e h = []) :=
  ⟨(c5_open_only [exOpenFile]).1 [openRec] rfl,
   (c5_open_only [exClosedFile]).2 rfl⟩

/-- C6: the critical-services subset keeps exactly the records whose
service is on the fixed twelve-entry allow-list and whose state is
`"open"`. -/
theorem c6_critical_subset (df : List ScanRecord) (r : ScanRecord) :
    (r ∈ critical_ports df ↔
      r ∈ df ∧ r.service ∈ critical_services ∧ r.state = "open")
    ∧ critical_services = ["ssh", "telnet", "ftp", "http", "https", "rdp",
        "ms-wbt-server", "mysql", "postgresql", "mssql", "smb",
        "microsoft-ds"] := by
  refine ⟨?_, rfl⟩
  unfold critical_ports
  rw [List.mem_filter]
  constructor
  · rintro ⟨hmem, hcond⟩
    rw [Bool.and_eq_true] at hcond
    exact ⟨hmem, List.mem_of_elem_eq_true hcond.1, eq_of_beq hcond.2⟩
  · rintro ⟨hmem, hserv, hstate⟩
    refine ⟨hmem, ?_⟩
    rw [Bool.and_eq_true]
    constructor
    · exact List.elem_eq_true_of_mem hserv
    · rw [hstate]
      rfl

theorem processFile_nil_of_bad_ext (f : InputFile)
    (hext : acceptedExt f.name = false) : processFile f = [] := by
  unfold processFile
  rw [hext]
  rfl

theorem processFile_missing (name : String) :
    processFile (InputFile.mk name FileContent.missing) = [] := by
  unfold processFile
  dsimp only
  cases hext : acceptedExt name <;> rfl

theorem processFile_malformed (name : String) :
    processFile (InputFile.mk name FileContent.malformed) = [] := by
  unfold processFile
  dsimp only
  cases hext : acceptedExt name <;> rfl

theorem collectLoop_cons_skip (f : InputFile) (fs : List InputFile)
    (acc : List ScanRecord) (hf : processFile f = []) :
    collectLoop (f :: fs) acc = collectLoop fs acc := by
  rw [collectLoop, hf, List.append_nil]

/-- C8: a file with the wrong extension, a missing file and a file
whose document is malformed are each skipped (contributing no records)
and the loop continues with the remaining files; a malformed document
produces a typed failure naming the offending file; and the whole run
fails exactly when zero records were collected over all files. -/
theorem c8_per_file_policy (f : InputFile) (fs : List InputFile)
    (acc : List ScanRecord) (xml_files : List InputFile) :
    (acceptedExt f.name = false →
        processFile f = [] ∧ collectLoop (f :: fs) acc = collectLoop fs acc)
    ∧ (f.content = FileContent.missing →
        processFile f = [] ∧ collectLoop (f :: fs) acc = collectLoop fs acc)
    ∧ (f.content = FileContent.malformed →
        parse_single_nmap_file_result f.name f.content =
          Except.error ("Invalid XML format in " ++ f.name)
        ∧ processFile f = [] ∧ collectLoop (f :: fs) acc = collectLoop fs acc)
    ∧ ((∃ msg, nmap_parser_records xml_files false = Except.error msg) ↔
        collectLoop xml_files [] = []) := by
  obtain ⟨name, content⟩ := f
  refine ⟨?_, ?_, ?_, ?_⟩
  · intro hext
    have h := processFile_nil_of_bad_ext (InputFile.mk name content) hext
    exact ⟨h, collectLoop_cons_skip _ fs acc h⟩
  · intro hc
    dsimp only at hc
    subst hc
    have h := processFile_missing name
    exact ⟨h, collectLoop_cons_skip _ fs acc h⟩
  · intro hc
    dsimp only at hc
    subst hc
    have h := processFile_malformed name
    exact ⟨rfl, h, collectLoop_cons_skip _ fs acc h⟩
  · rw [nmap_parser_records_false_eq]
    by_cases h1 : (collectLoop xml_files []).isEmpty
    · rw [if_pos h1]
      exact ⟨fun _ => List.isEmpty_iff.mp h1, fun _ => ⟨_, rfl⟩⟩
    · rw [if_neg h1]
      constructor
      · rintro ⟨msg, hm⟩
        exact Except.noConfusion hm
      · intro h
        exact absurd (List.isEmpty_iff.mpr h) h1

/-- Witness for C8: a `.txt` file, a missing file and a malformed file
are each skipped, and the malformed one yields the typed error naming
it. -/
theorem c8_per_file_policy_witness :
    (processFile (InputFile.mk "scan.txt" (FileContent.doc exOpenDoc)) = []
      ∧ collectLoop [InputFile.mk "scan.txt" (FileContent.doc exOpenDoc)] []
          = collectLoop [] [])
    ∧ (processFile (InputFile.mk "gone.xml" FileContent.missing) = []
      ∧ collectLoop [InputFile.mk "gone.xml" FileContent.missing] []
          = collectLoop [] [])
    ∧ (parse_single_nmap_file_result "bad.xml" FileContent.malformed =
          Except.error ("Invalid XML format in " ++ "bad.xml")
      ∧ processFile (InputFile.mk "bad.xml" FileContent.malformed) = []
      ∧ collectLoop [InputFile.mk "bad.xml" FileContent.malformed] []
          = collectLoop [] []) :=
  ⟨(c8_per_file_policy (InputFile.mk "scan.txt" (FileContent.doc exOpenDoc))
      [] [] []).1 (by decide),
   ⟨((c8_per_file_policy (InputFile.mk "gone.xml" FileContent.missing)
      [] [] []).2.1 rfl),
    ((c8_per_file_policy (InputFile.mk "bad.xml" FileContent.malformed)
      [] [] []).2.2.1 rfl)⟩⟩

/-- C10: an attribute present with an empty value behaves exactly like
an absent attribute in the details construction (so three empty
attributes still yield `"Unknown"`), and the extension check accepts
`.xml` case-insensitively, so a `.XML` file is processed, not
skipped. -/
theorem c10_truthiness (p v e : Option String) (root : XmlElem) :
    detailsFromAttrs (some "") v e = detailsFromAttrs none v e
    ∧ detailsFromAttrs p (some "") e = detailsFromAttrs p none e
    ∧ detailsFromAttrs p v (some "") = detailsFromAttrs p v none
    ∧ detailsFromAttrs (some "") (some "") (some "") = "Unknown"
    ∧ acceptedExt "scan.XML" = true
    ∧ processFile (InputFile.mk "scan.XML" (FileContent.doc root)) =
        parse_single_nmap_file "scan.XML" root := by
  have h0 : truthy (some "") = false := by decide
  refine ⟨?_, ?_, ?_, by decide, by decide, ?_⟩
  · simp [detailsFromAttrs, h0, truthy]
  · simp [detailsFromAttrs, h0, truthy]
  · simp [detailsFromAttrs, h0, truthy]
  · unfold processFile
    dsimp only
    rw [(by decide : acceptedExt "scan.XML" = true)]
    rfl

theorem filterMap_id_three (o1 o2 o3 : Option String) :
    List.filterMap id [o1, o2, o3] = o1.toList ++ o2.toList ++ o3.toList := by
  cases o1 <;> cases o2 <;> cases o3 <;> rfl

theorem optPart (o : Option String) :
    (if truthy o then [o.getD ""] else []) =
      (Option.filter (fun s => !(s == "")) o).toList := by
  cases o with
  | none => rfl
  | some s =>
    by_cases hs : s = ""
    · subst hs
      rfl
    · simp [truthy, hs, Option.filter]

theorem optPartParen (o : Option String) :
    (if truthy o then ["(" ++ o.getD "" ++ ")"] else []) =
      ((Option.filter (fun s => !(s == "")) o).map
        (fun v => "(" ++ v ++ ")")).toList := by
  cases o with
  | none => rfl
  | some s =>
    by_cases hs : s = ""
    · subst hs
      rfl
    · simp [truthy, hs, Option.filter]

theorem detailsFromAttrs_eq_detailsSpec (p v e : Option String) :
    detailsFromAttrs p v e = detailsSpec p v e := by
  simp only [detailsFromAttrs, detailsSpec]
  rw [filterMap_id_three, ← optPart p, ← optPartParen v, ← optPart e]

theorem parsePort_details (ip hn src : String) (port : XmlElem) :
    (parsePort ip hn src port).details =
      (match find port "service" with
       | none => detailsFromAttrs none none none
       | some service_elem =>
          detailsFromAttrs (getAttr service_elem "product")
            (getAttr service_elem "version")
            (getAttr service_elem "extrainfo")) := by
  unfold parsePort
  cases find port "service" <;> rfl

/-- C2 counterexample: a `service` element with `product` present but
empty and `version` present yields details `"(2.4)"`, while the
claim's presence-based join predicts the partially-empty `" (2.4)"`. -/
theorem c2_details_counterexample :
    (parsePort "10.0.0.1" "N/A" "scan.xml" c2Port).details = "(2.4)"
    ∧ getAttr c2Service "product" = some ""
    ∧ getAttr c2Service "version" = some "2.4"
    ∧ getAttr c2Service "extrainfo" = none
    ∧ detailsPresence (some "") (some "2.4") none = " (2.4)"
    ∧ (" (2.4)" : String) ≠ "(2.4)" := by
  decide

/-- C2 (amended): the details field of every record equals the
space-join, in order, of the product, the parenthesized version and
the extrainfo attributes of the port's `service` element whenever they
are present WITH A NON-EMPTY VALUE, the sentinel `"Unknown"` when
nothing was kept; `product="Apache"`, `version="2.4"`,
`extrainfo="(Debian)"` yields exactly `"Apache (2.4) (Debian)"`, and a
version without a product still contributes `"(version)"`. -/
theorem c2_details_amended (ip hn src : String) (port : XmlElem) :
    (parsePort ip hn src port).details =
      (match find port "service" with
       | none => "Unknown"
       | some service_elem =>
          detailsSpec (getAttr service_elem "product")
            (getAttr service_elem "version")
            (getAttr service_elem "extrainfo"))
    ∧ detailsFromAttrs (some "Apache") (some "2.4") (some "(Debian)")
        = "Apache (2.4) (Debian)"
    ∧ detailsFromAttrs none (some "1.0") none = "(1.0)" := by
  refine ⟨?_, by decide, by decide⟩
  rw [parsePort_details]
  cases find port "service" with
  | none => decide
  | some service_elem =>
    show detailsFromAttrs (getAttr service_elem "product")
        (getAttr service_elem "version") (getAttr service_elem "extrainfo") =
      detailsSpec (getAttr service_elem "product")
        (getAttr service_elem "version") (getAttr service_elem "extrainfo")
    exact detailsFromAttrs_eq_detailsSpec _ _ _

/-- C9: the CSV row of every record of a successful run carries the
ip, port number, protocol, state and service values verbatim (and is a
row of the CSV table), the spreadsheet table is identical to the CSV
table, and only the HTML row uppercases the protocol and state
columns. -/
theorem c9_verbatim (xml_files : List InputFile) (oo : Bool)
    (recs : List ScanRecord) (r : ScanRecord)
    (_hok : nmap_parser_records xml_files oo = Except.ok recs)
    (hr : r ∈ recs) :
    csvRow r ∈ csv_output recs
    ∧ csvRow r = [r.ip, r.hostname, r.port_number, r.protocol, r.state,
        r.service, r.details, r.source_file]
    ∧ xlsx_output recs = csv_output recs
    ∧ (htmlRow recs r).take 5 = [r.ip, r.hostname, r.port_number,
        strToUpper r.protocol, strToUpper r.state] := by
  refine ⟨?_, rfl, rfl, ?_⟩
  · unfold csv_output
    exact List.mem_cons_of_mem _ (List.mem_map_of_mem csvRow hr)
  · unfold htmlRow
    dsimp only
    rfl

/-- Witness for C9 at a concrete one-file run. -/
theorem c9_verbatim_witness :
    csvRow openRec ∈ csv_output [openRec]
    ∧ csvRow openRec = [openRec.ip, openRec.hostname, openRec.port_number,
        openRec.protocol, openRec.state, openRec.service, openRec.details,
        openRec.source_file]
    ∧ xlsx_output [openRec] = csv_output [openRec]
    ∧ (htmlRow [openRec] openRec).take 5 = [openRec.ip, openRec.hostname,
        openRec.port_number, strToUpper openRec.protocol,
        strToUpper openRec.state] :=
  c9_verbatim [exOpenFile] false [openRec] openRec rfl (by decide)

theorem getAttrD_ne_empty (e : XmlElem) (k d : String)
    (he : attrReadOk e k = true) (hd : d ≠ "") : getAttrD e k d ≠ "" := by
  unfold attrReadOk at he
  unfold getAttrD
  cases hf : getAttr e k with
  | none => simpa using hd
  | some v =>
    have hv : (!(v == "")) = true := by
      rw [hf] at he
      exact he
    simpa using hv

theorem getAttrD_absent (e : XmlElem) (k d : String)
    (h : getAttr e k = none) : getAttrD e k d = d := by
  unfold getAttrD
  rw [h]
  rfl

theorem truthy_getD_ne_empty (o : Option String) (ht : truthy o = true) :
    o.getD "" ≠ "" := by
  cases o with
  | none => simp [truthy] at ht
  | some s =>
    simp [truthy] at ht
    simpa using ht

theorem paren_ne_empty (s : String) : ("(" ++ s ++ ")") ≠ "" := by
  intro h
  have hlen := congrArg String.length h
  rw [String.length_append, String.length_append, String.length_empty] at hlen
  have h1 : ("(" : String).length = 1 := rfl
  have h2 : (")" : String).length = 1 := rfl
  rw [h1, h2] at hlen
  omega

theorem spaceJoin_ne_empty :
    ∀ l : List String, (∀ x ∈ l, x ≠ "") → l ≠ [] → spaceJoin l ≠ ""
  | [], _, hne => absurd rfl hne
  | [x], hx, _ => by
    simpa [spaceJoin] using hx x (by simp)
  | x :: y :: t, hx, _ => by
    show x ++ " " ++ spaceJoin (y :: t) ≠ ""
    intro h
    have hlen := congrArg String.length h
    rw [String.length_append, String.length_append, String.length_empty] at hlen
    have h1 : (" " : String).length = 1 := rfl
    rw [h1] at hlen
    omega

theorem detailsFromAttrs_ne_empty (p v e : Option String) :
    detailsFromAttrs p v e ≠ "" := by
  simp only [detailsFromAttrs]
  by_cases hemp :
      ((if truthy p then [p.getD ""] else []) ++
        (if truthy v then ["(" ++ v.getD "" ++ ")"] else []) ++
        (if truthy e then [e.getD ""] else [])).isEmpty = true
  · rw [if_pos hemp]
    decide
  · rw [if_neg hemp]
    apply spaceJoin_ne_empty
    · intro x hx
      rcases List.mem_append.mp hx with hx12 | hx3
      · rcases List.mem_append.mp hx12 with hx1 | hx2
        · by_cases hp : truthy p = true
          · rw [if_pos hp] at hx1
            rw [List.mem_singleton.mp hx1]
            exact truthy_getD_ne_empty p hp
          · rw [if_neg hp] at hx1
            cases hx1
        · by_cases hv : truthy v = true
          · rw [if_pos hv] at hx2
            rw [List.mem_singleton.mp hx2]
            exact paren_ne_empty (v.getD "")
          · rw [if_neg hv] at hx2
            cases hx2
      · by_cases he : truthy e = true
        · rw [if_pos he] at hx3
          rw [List.mem_singleton.mp hx3]
          exact truthy_getD_ne_empty e he
        · rw [if_neg he] at hx3
          cases hx3
    · intro hnil
      apply hemp
      rw [hnil]
      rfl

theorem parsePort_ip (ip hn src : String) (port : XmlElem) :
    (parsePort ip hn src port).ip = ip := rfl

theorem parsePort_hostname (ip hn src : String) (port : XmlElem) :
    (parsePort ip hn src port).hostname = hn := rfl

theorem parsePort_port_number (ip hn src : String) (port : XmlElem) :
    (parsePort ip hn src port).port_number =
      getAttrD port "portid" "Unknown" := rfl

theorem parsePort_protocol (ip hn src : String) (port : XmlElem) :
    (parsePort ip hn src port).protocol =
      getAttrD port "protocol" "Unknown" := rfl

theorem parsePort_source (ip hn src : String) (port : XmlElem) :
    (parsePort ip hn src port).source_file = src := rfl

theorem parsePort_state (ip hn src : String) (port : XmlElem) :
    (parsePort ip hn src port).state =
      (match find port "state" with
       | none => "Unknown"
       | some state_elem => getAttrD state_elem "state" "Unknown") := by
  unfold parsePort
  cases find port "state" <;> rfl

theorem parsePort_service (ip hn src : String) (port : XmlElem) :
    (parsePort ip hn src port).service =
      (match find port "service" with
       | none => "Unknown"
       | some service_elem => getAttrD service_elem "name" "Unknown") := by
  unfold parsePort
  cases find port "service" <;> rfl

theorem parsePort_fields_ne_empty (ip hn src : String) (port : XmlElem)
    (hip : ip ≠ "") (hhn : hn ≠ "") (hsrc : src ≠ "")
    (hport : portReadOk port = true) :
    (parsePort ip hn src port).ip ≠ ""
    ∧ (parsePort ip hn src port).hostname ≠ ""
    ∧ (parsePort ip hn src port).port_number ≠ ""
    ∧ (parsePort ip hn src port).protocol ≠ ""
    ∧ (parsePort ip hn src port).state ≠ ""
    ∧ (parsePort ip hn src port).service ≠ ""
    ∧ (parsePort ip hn src port).details ≠ ""
    ∧ (parsePort ip hn src port).source_file ≠ "" := by
  unfold portReadOk at hport
  simp only [Bool.and_eq_true] at hport
  obtain ⟨⟨⟨hprot, hpid⟩, hstate⟩, hsvc⟩ := hport
  have hUnk : ("Unknown" : String) ≠ "" := by decide
  refine ⟨by rw [parsePort_ip]; exact hip,
    by rw [parsePort_hostname]; exact hhn, ?_, ?_, ?_, ?_, ?_,
    by rw [parsePort_source]; exact hsrc⟩
  · rw [parsePort_port_number]
    exact getAttrD_ne_empty port "portid" "Unknown" hpid hUnk
  · rw [parsePort_protocol]
    exact getAttrD_ne_empty port "protocol" "Unknown" hprot hUnk
  · rw [parsePort_state]
    cases hf : find port "state" with
    | none => exact hUnk
    | some state_elem =>
      have hs2 : attrReadOk state_elem "state" = true := by
        rw [hf] at hstate
        exact hstate
      exact getAttrD_ne_empty state_elem "state" "Unknown" hs2 hUnk
  · rw [parsePort_service]
    cases hf : find port "service" with
    | none => exact hUnk
    | some service_elem =>
      have hs2 : serviceReadOk service_elem = true := by
        rw [hf] at hsvc
        exact hsvc
      unfold serviceReadOk at hs2
      simp only [Bool.and_eq_true] at hs2
      exact getAttrD_ne_empty service_elem "name" "Unknown" hs2.1.1.1 hUnk
  · rw [parsePort_details]
    cases hf : find port "service" with
    | none => exact detailsFromAttrs_ne_empty none none none
    | some service_elem => exact detailsFromAttrs_ne_empty _ _ _

theorem hostnameOf_ne_empty (host : XmlElem)
    (hhn : hostnameReadOk host = true) : hostnameOf host ≠ "" := by
  have hNA : ("N/A" : String) ≠ "" := by decide
  unfold hostnameReadOk at hhn
  unfold hostnameOf
  split
  · exact hNA
  · next hostnames_elem hfh =>
    have hhn2 : (match find hostnames_elem "hostname" with
        | none => true
        | some hostname_elem => attrReadOk hostname_elem "name") = true := by
      rw [hfh] at hhn
      exact hhn
    split
    · exact hNA
    · next hostname_elem hfe =>
      have hhn3 : attrReadOk hostname_elem "name" = true := by
        rw [hfe] at hhn2
        exact hhn2
      exact getAttrD_ne_empty hostname_elem "name" "N/A" hhn3 hNA

theorem hostnameOf_sentinel (host : XmlElem)
    (h : find host "hostnames" = none
      ∨ (∃ hostnames_elem, find host "hostnames" = some hostnames_elem
          ∧ find hostnames_elem "hostname" = none)
      ∨ (∃ hostnames_elem hostname_elem,
          find host "hostnames" = some hostnames_elem
          ∧ find hostnames_elem "hostname" = some hostname_elem
          ∧ getAttr hostname_elem "name" = none)) :
    hostnameOf host = "N/A" := by
  unfold hostnameOf
  split
  · rfl
  · next hostnames_elem hfh =>
    split
    · rfl
    · next hostname_elem hfe =>
      rcases h with h1 | ⟨he1, h1, h2⟩ | ⟨he1, he2, h1, h2, h3⟩
      · rw [h1] at hfh
        cases hfh
      · rw [h1] at hfh
        injection hfh with hfh
        subst hfh
        rw [h2] at hfe
        cases hfe
      · rw [h1] at hfh
        injection hfh with hfh
        subst hfh
        rw [h2] at hfe
        injection hfe with hfe
        subst hfe
        exact getAttrD_absent _ "name" "N/A" h3

theorem parseHost_eq_of_found (src : String)
    (host address_elem ports_elem : XmlElem)
    (hfa : find host "address" = some address_elem)
    (hfp : find host "ports" = some ports_elem) :
    parseHost src host =
      (findall ports_elem "port").map
        (parsePort (getAttrD address_elem "addr" "Unknown")
          (hostnameOf host) src) := by
  unfold parseHost
  split
  · next heq =>
    rw [hfa] at heq
    cases heq
  · next ae heq =>
    rw [hfa] at heq
    injection heq with heq
    subst heq
    split
    · next heq2 =>
      rw [hfp] at heq2
      cases heq2
    · next pe heq2 =>
      rw [hfp] at heq2
      injection heq2 with heq2
      subst heq2
      rfl

theorem parseHost_mem_shape (src : String) (host : XmlElem) (r : ScanRecord)
    (hr : r ∈ parseHost src host) :
    ∃ address_elem ports_elem port,
      find host "address" = some address_elem ∧
      find host "ports" = some ports_elem ∧
      port ∈ findall ports_elem "port" ∧
      r = parsePort (getAttrD address_elem "addr" "Unknown")
            (hostnameOf host) src port := by
  cases hfa : find host "address" with
  | none =>
    rw [parseHost_nil_of_no_address _ _ hfa] at hr
    cases hr
  | some address_elem =>
    cases hfp : find host "ports" with
    | none =>
      rw [parseHost_nil_of_no_ports _ _ hfp] at hr
      cases hr
    | some ports_elem =>
      rw [parseHost_eq_of_found _ _ _ _ hfa hfp, List.mem_map] at hr
      obtain ⟨port, hpmem, hre⟩ := hr
      exact ⟨address_elem, ports_elem, port, rfl, rfl, hpmem, hre.symm⟩

theorem parse_fields_ne_empty (xml_file : String) (root : XmlElem)
    (hsrc : pathName xml_file ≠ "")
    (hax : readAttrsNonEmpty root = true) :
    ∀ r ∈ parse_single_nmap_file xml_file root,
      r.ip ≠ "" ∧ r.hostname ≠ "" ∧ r.port_number ≠ "" ∧ r.protocol ≠ ""
      ∧ r.state ≠ "" ∧ r.service ≠ "" ∧ r.details ≠ ""
      ∧ r.source_file ≠ "" := by
  intro r hr
  unfold parse_single_nmap_file at hr
  rw [List.mem_flatMap] at hr
  obtain ⟨host, hhost, hr⟩ := hr
  unfold readAttrsNonEmpty at hax
  rw [List.all_eq_true] at hax
  have hh := hax host hhost
  unfold hostReadOk at hh
  simp only [Bool.and_eq_true] at hh
  obtain ⟨⟨haddr, hhn⟩, hports⟩ := hh
  obtain ⟨address_elem, ports_elem, port, hfa, hfp, hpmem, rfl⟩ :=
    parseHost_mem_shape _ _ _ hr
  have haddr2 : attrReadOk address_elem "addr" = true := by
    unfold addressReadOk at haddr
    rw [hfa] at haddr
    exact haddr
  have hports2 : (findall ports_elem "port").all portReadOk = true := by
    rw [hfp] at hports
    exact hports
  rw [List.all_eq_true] at hports2
  exact parsePort_fields_ne_empty _ _ _ port
    (getAttrD_ne_empty address_elem "addr" "Unknown" haddr2 (by decide))
    (hostnameOf_ne_empty host hhn) hsrc (hports2 port hpmem)

/-- C3 counterexample: an `addr` attribute present in the source but
holding the empty string flows into the record unchanged, so the
extractor can produce a record whose `ip` field is the empty string. -/
theorem c3_fields_counterexample :
    (parse_single_nmap_file "scan.xml" c3Root).map ScanRecord.ip = [""]
    ∧ ((parse_single_nmap_file "scan.xml" c3Root).all
        (fun r => !(r.ip == ""))) = false := by
  decide

/-- C3 (amended): provided every attribute value the extractor reads is
non-empty (attributes it never reads are unconstrained) and the
source-file name is non-empty, every record has all eight fields
non-empty; absence of the corresponding element or attribute yields the
sentinel in every field — `addr` absent gives ip `"Unknown"`,
`protocol`/`portid` absent give `"Unknown"`, the `state` element or its
`state` attribute absent both give the same `"Unknown"` (not
distinguished), the `service` element absent gives service and details
`"Unknown"`, its `name` attribute absent gives service `"Unknown"`, and
the `hostnames` element, its `hostname` child, or that child's `name`
attribute absent each give hostname `"N/A"`.  (The unconditional
no-empty-field claim fails: an attribute present with an empty value is
copied into the record by the default-based lookups.) -/
theorem c3_fields_amended (xml_file : String) (root : XmlElem)
    (hsrc : pathName xml_file ≠ "")
    (hax : readAttrsNonEmpty root = true) :
    (∀ r ∈ parse_single_nmap_file xml_file root,
      r.ip ≠ "" ∧ r.hostname ≠ "" ∧ r.port_number ≠ "" ∧ r.protocol ≠ ""
      ∧ r.state ≠ "" ∧ r.service ≠ "" ∧ r.details ≠ ""
      ∧ r.source_file ≠ "")
    ∧ (∀ src : String, ∀ host address_elem : XmlElem,
        find host "address" = some address_elem →
        getAttr address_elem "addr" = none →
        ∀ r ∈ parseHost src host, r.ip = "Unknown")
    ∧ (∀ ip hn src : String, ∀ port : XmlElem,
        getAttr port "protocol" = none →
        (parsePort ip hn src port).protocol = "Unknown")
    ∧ (∀ ip hn src : String, ∀ port : XmlElem,
        getAttr port "portid" = none →
        (parsePort ip hn src port).port_number = "Unknown")
    ∧ (∀ ip hn src : String, ∀ port : XmlElem, find port "state" = none →
        (parsePort ip hn src port).state = "Unknown")
    ∧ (∀ ip hn src : String, ∀ port state_elem : XmlElem,
        find port "state" = some state_elem →
        getAttr state_elem "state" = none →
        (parsePort ip hn src port).state = "Unknown")
    ∧ (∀ ip hn src : String, ∀ port : XmlElem, find port "service" = none →
        (parsePort ip hn src port).service = "Unknown"
        ∧ (parsePort ip hn src port).details = "Unknown")
    ∧ (∀ ip hn src : String, ∀ port service_elem : XmlElem,
        find port "service" = some service_elem →
        getAttr service_elem "name" = none →
        (parsePort ip hn src port).service = "Unknown")
    ∧ (∀ src : String, ∀ host : XmlElem,
        (find host "hostnames" = none
          ∨ (∃ hostnames_elem, find host "hostnames" = some hostnames_elem
              ∧ find hostnames_elem "hostname" = none)
          ∨ (∃ hostnames_elem hostname_elem,
              find host "hostnames" = some hostnames_elem
              ∧ find hostnames_elem "hostname" = some hostname_elem
              ∧ getAttr hostname_elem "name" = none)) →
        ∀ r ∈ parseHost src host, r.hostname = "N/A") := by
  refine ⟨parse_fields_ne_empty xml_file root hsrc hax,
    ?_, ?_, ?_, ?_, ?_, ?_, ?_, ?_⟩
  · intro src host address_elem hfa hattr r hr
    obtain ⟨ae2, pe2, port, hfa2, hfp2, hpmem, rfl⟩ :=
      parseHost_mem_shape _ _ _ hr
    rw [hfa] at hfa2
    injection hfa2 with hfa2
    subst hfa2
    rw [parsePort_ip]
    exact getAttrD_absent _ "addr" "Unknown" hattr
  · intro ip hn src port hattr
    rw [parsePort_protocol]
    exact getAttrD_absent port "protocol" "Unknown" hattr
  · intro ip hn src port hattr
    rw [parsePort_port_number]
    exact getAttrD_absent port "portid" "Unknown" hattr
  · intro ip hn src port hf
    rw [parsePort_state, hf]
  · intro ip hn src port state_elem hf hattr
    rw [parsePort_state, hf]
    show getAttrD state_elem "state" "Unknown" = "Unknown"
    exact getAttrD_absent state_elem "state" "Unknown" hattr
  · intro ip hn src port hf
    constructor
    · rw [parsePort_service, hf]
    · rw [parsePort_details, hf]
      show detailsFromAttrs none none none = "Unknown"
      decide
  · intro ip hn src port service_elem hf hattr
    rw [parsePort_service, hf]
    show getAttrD service_elem "name" "Unknown" = "Unknown"
    exact getAttrD_absent service_elem "name" "Unknown" hattr
  · intro src host hcase r hr
    obtain ⟨ae2, pe2, port, hfa2, hfp2, hpmem, rfl⟩ :=
      parseHost_mem_shape _ _ _ hr
    rw [parsePort_hostname]
    exact hostnameOf_sentinel host hcase

/-- Witness for C3 (amended) at a concrete document whose read
attribute values are all non-empty. -/
theorem c3_fields_amended_witness :
    (∀ r ∈ parse_single_nmap_file "scan.xml" exOpenDoc,
      r.ip ≠ "" ∧ r.hostname ≠ "" ∧ r.port_number ≠ "" ∧ r.protocol ≠ ""
      ∧ r.state ≠ "" ∧ r.service ≠ "" ∧ r.details ≠ ""
      ∧ r.source_file ≠ "")
    ∧ (∀ src : String, ∀ host address_elem : XmlElem,
        find host "address" = some address_elem →
        getAttr address_elem "addr" = none →
        ∀ r ∈ parseHost src host, r.ip = "Unknown")
    ∧ (∀ ip hn src : String, ∀ port : XmlElem,
        getAttr port "protocol" = none →
        (parsePort ip hn src port).protocol = "Unknown")
    ∧ (∀ ip hn src : String, ∀ port : XmlElem,
        getAttr port "portid" = none →
        (parsePort ip hn src port).port_number = "Unknown")
    ∧ (∀ ip hn src : String, ∀ port : XmlElem, find port "state" = none →
        (parsePort ip hn src port).state = "Unknown")
    ∧ (∀ ip hn src : String, ∀ port state_elem : XmlElem,
        find port "state" = some state_elem →
        getAttr state_elem "state" = none →
        (parsePort ip hn src port).state = "Unknown")
    ∧ (∀ ip hn src : String, ∀ port : XmlElem, find port "service" = none →
        (parsePort ip hn src port).service = "Unknown"
        ∧ (parsePort ip hn src port).details = "Unknown")
    ∧ (∀ ip hn src : String, ∀ port service_elem : XmlElem,
        find port "service" = some service_elem →
        getAttr service_elem "name" = none →
        (parsePort ip hn src port).service = "Unknown")
    ∧ (∀ src : String, ∀ host : XmlElem,
        (find host "hostnames" = none
          ∨ (∃ hostnames_elem, find host "hostnames" = some hostnames_elem
              ∧ find hostnames_elem "hostname" = none)
          ∨ (∃ hostnames_elem hostname_elem,
              find host "hostnames" = some hostnames_elem
              ∧ find hostnames_elem "hostname" = some hostname_elem
              ∧ getAttr hostname_elem "name" = none)) →
        ∀ r ∈ parseHost src host, r.hostname = "N/A") :=
  c3_fields_amended "scan.xml" exOpenDoc (by decide) (by decide)

theorem insertDesc_perm (p : String × Nat) :
    ∀ l : List (String × Nat), List.Perm (insertDesc p l) (p :: l)
  | [] => List.Perm.refl _
  | q :: qs => by
    unfold insertDesc
    by_cases hle : q.2 ≤ p.2
    · rw [if_pos hle]
    · rw [if_neg hle]
      exact List.Perm.trans (List.Perm.cons q (insertDesc_perm p qs))
        (List.Perm.swap p q qs)

theorem sortDesc_perm :
    ∀ l : List (String × Nat), List.Perm (sortDesc l) l
  | [] => List.Perm.refl _
  | p :: ps => by
    unfold sortDesc
    exact List.Perm.trans (insertDesc_perm p (sortDesc ps))
      (List.Perm.cons p (sortDesc_perm ps))

theorem insertDesc_pairwise (p : String × Nat) :
    ∀ l : List (String × Nat),
      List.Pairwise (fun a b => b.2 ≤ a.2) l →
      List.Pairwise (fun a b => b.2 ≤ a.2) (insertDesc p l)
  | [], _ => by simp [insertDesc]
  | q :: qs, h => by
    rw [List.pairwise_cons] at h
    obtain ⟨hq, hqs⟩ := h
    unfold insertDesc
    by_cases hle : q.2 ≤ p.2
    · rw [if_pos hle]
      rw [List.pairwise_cons]
      constructor
      · intro x hx
        rcases List.mem_cons.mp hx with hx | hx
        · rw [hx]
          exact hle
        · exact Nat.le_trans (hq x hx) hle
      · rw [List.pairwise_cons]
        exact ⟨hq, hqs⟩
    · rw [if_neg hle]
      rw [List.pairwise_cons]
      constructor
      · intro x hx
        have hx2 := (insertDesc_perm p qs).mem_iff.mp hx
        rcases List.mem_cons.mp hx2 with hx2 | hx2
        · rw [hx2]
          exact Nat.le_of_lt (Nat.lt_of_not_le hle)
        · exact hq x hx2
      · exact insertDesc_pairwise p qs hqs

theorem sortDesc_pairwise :
    ∀ l : List (String × Nat),
      List.Pairwise (fun a b => b.2 ≤ a.2) (sortDesc l)
  | [] => List.Pairwise.nil
  | p :: ps => by
    unfold sortDesc
    exact insertDesc_pairwise p (sortDesc ps) (sortDesc_pairwise ps)

theorem filter_insertDesc (c : Nat) (p : String × Nat) :
    ∀ l : List (String × Nat),
      List.Pairwise (fun a b => b.2 ≤ a.2) l →
      (insertDesc p l).filter (fun q => q.2 == c) =
        if p.2 == c then p :: l.filter (fun q => q.2 == c)
        else l.filter (fun q => q.2 == c)
  | [], _ => by
    unfold insertDesc
    rw [List.filter_cons]
  | q :: qs, h => by
    rw [List.pairwise_cons] at h
    obtain ⟨hq, hqs⟩ := h
    unfold insertDesc
    by_cases hle : q.2 ≤ p.2
    · rw [if_pos hle, List.filter_cons]
    · rw [if_neg hle, List.filter_cons, List.filter_cons,
        filter_insertDesc c p qs hqs]
      have hlt : p.2 < q.2 := Nat.lt_of_not_le hle
      cases hpc : (p.2 == c)
      · simp [hpc]
      · have hpce : p.2 = c := by simpa using hpc
        have hqc : (q.2 == c) = false := beq_eq_false_iff_ne.mpr (by omega)
        simp [hpc, hqc]

theorem sortDesc_filter (c : Nat) :
    ∀ l : List (String × Nat),
      (sortDesc l).filter (fun q => q.2 == c) =
        l.filter (fun q => q.2 == c)
  | [] => rfl
  | p :: ps => by
    unfold sortDesc
    rw [filter_insertDesc c p (sortDesc ps) (sortDesc_pairwise ps),
      sortDesc_filter c ps, List.filter_cons]

theorem mem_firstOccurrences :
    ∀ (l : List String) (s : String), s ∈ firstOccurrences l ↔ s ∈ l
  | [], s => by simp [firstOccurrences]
  | t :: rest, s => by
    unfold firstOccurrences
    by_cases hst : s = t
    · subst hst
      simp
    · rw [List.mem_cons, List.mem_cons]
      simp only [hst, false_or]
      rw [List.mem_filter]
      constructor
      · rintro ⟨h1, _⟩
        exact (mem_firstOccurrences rest s).mp h1
      · intro h
        refine ⟨(mem_firstOccurrences rest s).mpr h, ?_⟩
        simpa using hst

theorem mem_value_counts (l : List String) (q : String × Nat) :
    q ∈ value_counts l ↔ q.1 ∈ l ∧ q.2 = countOf l q.1 := by
  unfold value_counts
  rw [(sortDesc_perm _).mem_iff, List.mem_map]
  constructor
  · rintro ⟨s, hs, rfl⟩
    exact ⟨(mem_firstOccurrences l s).mp hs, rfl⟩
  · rintro ⟨h1, h2⟩
    refine ⟨q.1, (mem_firstOccurrences l q.1).mpr h1, ?_⟩
    cases q with
    | mk a b =>
      dsimp only at h2
      rw [h2]

/-- C7: the top-services statistic is the five-entry head of the
per-service open-port counts: it has at most five entries, each entry
pairs a service of the open rows with its exact frequency there, the
entries are in descending frequency order, ties keep first-encounter
order (filtering the sorted counts to one frequency returns the
services in first-appearance order), and every open service left out
has a count no greater than any listed entry's. -/
theorem c7_top_services (df : List ScanRecord) :
    (top_services df).length ≤ 5
    ∧ top_services df = (value_counts (openServices df)).take 5
    ∧ (∀ q ∈ top_services df,
        q.1 ∈ openServices df ∧ q.2 = countOf (openServices df) q.1)
    ∧ List.Pairwise (fun a b => b.2 ≤ a.2) (top_services df)
    ∧ (∀ c : Nat,
        (value_counts (openServices df)).filter (fun q => q.2 == c)
        = ((firstOccurrences (openServices df)).map
            (fun s => (s, countOf (openServices df) s))).filter
            (fun q => q.2 == c))
    ∧ (∀ s ∈ openServices df, s ∉ (top_services df).map Prod.fst →
        ∀ q ∈ top_services df, countOf (openServices df) s ≤ q.2) := by
  refine ⟨?_, rfl, ?_, ?_, ?_, ?_⟩
  · show ((value_counts (openServices df)).take 5).length ≤ 5
    rw [List.length_take]
    exact min_le_left _ _
  · intro q hq
    exact (mem_value_counts _ q).mp (List.mem_of_mem_take hq)
  · show List.Pairwise (fun a b => b.2 ≤ a.2)
      ((value_counts (openServices df)).take 5)
    exact List.Pairwise.sublist (List.take_sublist _ _) (sortDesc_pairwise _)
  · intro c
    exact sortDesc_filter c _
  · intro s hs hnot q hq
    have hvc : (s, countOf (openServices df) s) ∈
        value_counts (openServices df) :=
      (mem_value_counts _ _).mpr ⟨hs, rfl⟩
    have hsplit := List.take_append_drop 5 (value_counts (openServices df))
    rw [← hsplit] at hvc
    have hdrop : (s, countOf (openServices df) s) ∈
        (value_counts (openServices df)).drop 5 := by
      rcases List.mem_append.mp hvc with hin | hin
      · exact absurd (List.mem_map_of_mem Prod.fst hin) hnot
      · exact hin
    have hpw : List.Pairwise (fun a b => b.2 ≤ a.2)
        ((value_counts (openServices df)).take 5 ++
         (value_counts (openServices df)).drop 5) := by
      rw [hsplit]
      exact sortDesc_pairwise _
    exact (List.pairwise_append.mp hpw).2.2 q hq _ hdrop

/-- Witness for C7: with six open services of which five occur twice
and `"f"` once, the excluded `"f"` has count at most that of the
listed `("a", 2)`. -/
theorem c7_top_services_witness :
    countOf (openServices c7df) "f" ≤ ("a", (2 : Nat)).2 :=
  ((c7_top_services c7df).2.2.2.2.2) "f" (by decide) (by decide)
    ("a", 2) (by decide)

/-- Witness for C4: a one-file run returns that file's records. -/
theorem c4_merge_is_concat_witness :
    [openRec] = ([exOpenFile].map processFile).flatten :=
  (c4_merge_is_concat [exOpenFile]).2 [openRec] rfl
